import Mathlib

/-!
Verification of the batch-processing core of `batch_processor`
(`src/batch_processor.py`, `src/batch_constraints.py`, `src/batch_metrics.py`).

The Python code is shallowly embedded:

* a Python `str` is a sequence of Unicode code points, modelled as `List Char`
  (`PyStr`); its UTF-8 encoding length is `utf8Len`;
* `sys.getsizeof(record.encode('utf-8'))` from `_get_record_size` is modelled
  by `sys_getsizeof_bytes`: on CPython (64-bit) `sys.getsizeof` of a `bytes`
  object is its content length plus the fixed 33-byte `PyBytesObject` header
  (`sys.getsizeof(b"") == 33`);
* the mutable `BatchMetrics` dataclass is threaded explicitly: each operation
  takes the metrics before the call and returns the metrics after it, whether
  it returns normally or raises;
* the generator `create_batches` is modelled by its full consumption: a fold
  of a per-record step (`process_record`) over the input, returning the list
  of batches yielded in order, the final metrics, and the `TypeError` raised
  mid-traversal, if any (`BatchRun`).  A `TypeError` raised by the loop body
  ends the traversal with the batches yielded so far.
-/

set_option autoImplicit false

/-- A Python `str`: a sequence of Unicode code points. -/
abbrev PyStr := List Char

/-- The number of bytes of the UTF-8 encoding of a string
(`len(record.encode('utf-8'))`): each code point contributes its UTF-8
encoded width (1 to 4 bytes). -/
def utf8Len (record : PyStr) : Nat := (record.map Char.utf8Size).sum

/-- Model of CPython (64-bit) `sys.getsizeof` applied to a `bytes` object of
the given content length: content length plus the fixed `PyBytesObject`
header overhead of 33 bytes (`sys.getsizeof(b"") == 33`,
`sys.getsizeof(b"xy") == 35`). -/
def sys_getsizeof_bytes (contentLen : Nat) : Nat := contentLen + 33

/-- A value passed where the code expects a record: either an actual `str`
or some non-string object (`None`, `int`, `dict`, ...), which the code
treats uniformly via `isinstance(record, str)`. -/
inductive PyObj where
  | str (s : PyStr)
  | nonStr
deriving DecidableEq

/-- The argument of `create_batches`: `None`, a non-list object, or an actual
list of element objects (`records is None or not isinstance(records, list)`
distinguishes exactly these shapes). -/
inductive PyInput where
  | pyNone
  | nonList
  | list (records : List PyObj)
deriving DecidableEq

/-- The only error kind raised by the core: Python `TypeError`
(the spec's `InvalidArgument`). -/
inductive PyError where
  | typeError
deriving DecidableEq

/-- `src/batch_constraints.py` — `BatchConstraints`, a frozen dataclass with
defaults `1_000_000`, `5_000_000`, `500`. -/
structure BatchConstraints where
  max_record_size_bytes : Nat := 1000000
  max_batch_size_bytes : Nat := 5000000
  max_records_per_batch : Nat := 500
deriving DecidableEq

/-- The default-constructed `BatchConstraints()`. -/
def defaultConstraints : BatchConstraints := {}

/-- `src/batch_metrics.py` — `BatchMetrics`, four integer counters, all
zero-initialized. -/
structure BatchMetrics where
  records_processed : Nat := 0
  records_discarded : Nat := 0
  batches_created : Nat := 0
  total_bytes_processed : Nat := 0
deriving DecidableEq

/-- The freshly constructed `BatchMetrics()` of a new `BatchProcessor`. -/
def freshMetrics : BatchMetrics := {}

/-- `BatchProcessor._get_record_size`:
`return sys.getsizeof(record.encode('utf-8'))`. -/
def _get_record_size (record : PyStr) : Nat :=
  sys_getsizeof_bytes (utf8Len record)

/-- `BatchProcessor.is_valid_record`.  Raises `TypeError` on a non-string.
On a string, computes `_get_record_size`, compares with
`constraints.max_record_size_bytes`, and on an invalid record increments
`records_discarded`.  The returned pair is (outcome, metrics after the
call) — on the `TypeError` path nothing has been mutated yet. -/
def is_valid_record (c : BatchConstraints) (m : BatchMetrics) (record : PyObj) :
    Except PyError Bool × BatchMetrics :=
  match record with
  | .nonStr => (.error .typeError, m)
  | .str s =>
    let record_size := _get_record_size s
    if record_size ≤ c.max_record_size_bytes then
      (.ok true, m)
    else
      (.ok false, { m with records_discarded := m.records_discarded + 1 })

/-- A batch as yielded by `create_batches`: a list of records. -/
abbrev Batch := List PyStr

/-- The loop state of the `create_batches` generator: batches yielded so
far, the `current_batch` buffer, the `current_batch_size` accumulator, and
the processor's metrics. -/
structure LoopState where
  batches : List Batch
  current_batch : List PyStr
  current_batch_size : Nat
  metrics : BatchMetrics
deriving DecidableEq

/-- Outcome of one iteration of the `for` loop body of `create_batches`:
either the next loop state, or the state at the moment a `TypeError`
escaped the body. -/
inductive StepResult where
  | ok (st : LoopState)
  | err (st : LoopState)
deriving DecidableEq

/-- One iteration of the `for record in records` body of
`BatchProcessor.create_batches`: increment `records_processed`; call
`is_valid_record` (which raises `TypeError` on a non-string, propagated);
skip the record when invalid; otherwise flush the current batch when
appending would exceed `max_batch_size_bytes` or the buffer already holds
`max_records_per_batch` records (yielding it only if non-empty), then
append the record and add its size to the accumulator and to
`total_bytes_processed`. -/
def process_record (c : BatchConstraints) (st : LoopState) (record : PyObj) :
    StepResult :=
  let m1 := { st.metrics with records_processed := st.metrics.records_processed + 1 }
  match record, is_valid_record c m1 record with
  | _, (.error _, m2) => .err { st with metrics := m2 }
  | .nonStr, (.ok _, m2) => .err { st with metrics := m2 }
  | .str s, (.ok is_valid, m2) =>
    if is_valid then
      let record_size := _get_record_size s
      let st2 :=
        if c.max_batch_size_bytes < st.current_batch_size + record_size
            ∨ c.max_records_per_batch ≤ st.current_batch.length then
          if st.current_batch.isEmpty then
            { st with current_batch := [], current_batch_size := 0, metrics := m2 }
          else
            { st with
              batches := st.batches ++ [st.current_batch],
              current_batch := [], current_batch_size := 0,
              metrics := { m2 with batches_created := m2.batches_created + 1 } }
        else { st with metrics := m2 }
      .ok { st2 with
            current_batch := st2.current_batch ++ [s],
            current_batch_size := st2.current_batch_size + record_size,
            metrics := { st2.metrics with
              total_bytes_processed := st2.metrics.total_bytes_processed + record_size } }
    else .ok { st with metrics := m2 }

/-- The `for record in records` loop of `create_batches`: iterate
`process_record`; a `TypeError` from the body aborts the traversal. -/
def run_records (c : BatchConstraints) : LoopState → List PyObj → StepResult
  | st, [] => .ok st
  | st, record :: rest =>
    match process_record c st record with
    | .ok st' => run_records c st' rest
    | .err st' => .err st'

/-- The loop state at entry of `create_batches`: empty buffer, zero
accumulator, no batch yielded yet, the processor's current metrics. -/
def initState (m : BatchMetrics) : LoopState :=
  { batches := [], current_batch := [], current_batch_size := 0, metrics := m }

/-- Observable result of fully consuming the `create_batches` generator:
the batches yielded in order, the metrics after consumption, and the
`TypeError`, if one was raised. -/
structure BatchRun where
  batches : List Batch
  metrics : BatchMetrics
  error : Option PyError
deriving DecidableEq

/-- `BatchProcessor.create_batches`, fully consumed.  `None` or a non-list
argument raises `TypeError` before any element is examined; otherwise the
loop runs over the elements and, after the input is exhausted, a non-empty
`current_batch` buffer is yielded as the final batch
(incrementing `batches_created`). -/
def create_batches (c : BatchConstraints) (m : BatchMetrics)
    (records : PyInput) : BatchRun :=
  match records with
  | .pyNone => { batches := [], metrics := m, error := some .typeError }
  | .nonList => { batches := [], metrics := m, error := some .typeError }
  | .list rs =>
    match run_records c (initState m) rs with
    | .err st => { batches := st.batches, metrics := st.metrics, error := some .typeError }
    | .ok st =>
      if st.current_batch.isEmpty then
        { batches := st.batches, metrics := st.metrics, error := none }
      else
        { batches := st.batches ++ [st.current_batch],
          metrics := { st.metrics with
            batches_created := st.metrics.batches_created + 1 },
          error := none }

/-- The validity predicate `is_valid_record` applies to a string record:
its `_get_record_size` is within `max_record_size_bytes`. -/
def record_ok (c : BatchConstraints) (s : PyStr) : Bool :=
  _get_record_size s ≤ c.max_record_size_bytes

/-- Sum of `_get_record_size` over a list of records — the quantity the
`current_batch_size` accumulator and `total_bytes_processed` track. -/
def sizeSum (b : List PyStr) : Nat := (b.map _get_record_size).sum

/-- The per-batch bounds of the spec (§3, §8): a batch is non-empty, holds
at most `max_records_per_batch` records, and its summed record sizes stay
within `max_batch_size_bytes` unless it is an oversized singleton. -/
def GoodBatch (c : BatchConstraints) (b : Batch) : Prop :=
  b ≠ [] ∧ b.length ≤ c.max_records_per_batch ∧
    (sizeSum b ≤ c.max_batch_size_bytes ∨ b.length = 1)

/-- Loop invariant of `create_batches`: the accumulator equals the summed
sizes of the buffer, the buffer respects the count bound and the size
bound (unless it holds at most one record), and every batch yielded so far
satisfies the per-batch bounds. -/
def GoodState (c : BatchConstraints) (st : LoopState) : Prop :=
  st.current_batch_size = sizeSum st.current_batch ∧
  st.current_batch.length ≤ c.max_records_per_batch ∧
  (st.current_batch_size ≤ c.max_batch_size_bytes ∨ st.current_batch.length ≤ 1) ∧
  ∀ b ∈ st.batches, GoodBatch c b

/-! ### Characterization of one loop iteration -/

/-- A non-string element: `is_valid_record` raises `TypeError` after
`records_processed` was incremented, aborting the loop body with the
buffer and yielded batches untouched. -/
theorem process_record_nonStr (c : BatchConstraints) (st : LoopState) :
    process_record c st .nonStr = .err { st with metrics :=
      { st.metrics with records_processed := st.metrics.records_processed + 1 } } := by
  simp [process_record, is_valid_record]

/-- An invalid (oversized) record: `records_processed` and
`records_discarded` are incremented and the record is skipped. -/
theorem process_record_str_invalid (c : BatchConstraints) (st : LoopState) (s : PyStr)
    (h : record_ok c s = false) :
    process_record c st (.str s) = .ok { st with metrics :=
      { st.metrics with
        records_processed := st.metrics.records_processed + 1,
        records_discarded := st.metrics.records_discarded + 1 } } := by
  have h' : ¬ _get_record_size s ≤ c.max_record_size_bytes := by
    simpa [record_ok] using h
  simp [process_record, is_valid_record, h']

/-- A valid record that fits the current batch (no flush): it is appended,
and its size is added to the accumulator and to `total_bytes_processed`. -/
theorem process_record_str_append (c : BatchConstraints) (st : LoopState) (s : PyStr)
    (hv : record_ok c s = true)
    (hsz : st.current_batch_size + _get_record_size s ≤ c.max_batch_size_bytes)
    (hlen : st.current_batch.length < c.max_records_per_batch) :
    process_record c st (.str s) = .ok
      { st with
        current_batch := st.current_batch ++ [s],
        current_batch_size := st.current_batch_size + _get_record_size s,
        metrics := { st.metrics with
          records_processed := st.metrics.records_processed + 1,
          total_bytes_processed :=
            st.metrics.total_bytes_processed + _get_record_size s } } := by
  have hv' : _get_record_size s ≤ c.max_record_size_bytes := by
    simpa [record_ok] using hv
  have hflush : ¬ (c.max_batch_size_bytes < st.current_batch_size + _get_record_size s
      ∨ c.max_records_per_batch ≤ st.current_batch.length) := by
    push_neg
    exact ⟨by omega, by omega⟩
  simp [process_record, is_valid_record, hv', hflush]

/-- A valid record hitting the flush condition with a non-empty buffer: the
buffer is yielded as a batch (`batches_created` incremented) and the record
starts a fresh batch. -/
theorem process_record_str_flush_emit (c : BatchConstraints) (st : LoopState) (s : PyStr)
    (hv : record_ok c s = true)
    (hflush : c.max_batch_size_bytes < st.current_batch_size + _get_record_size s
      ∨ c.max_records_per_batch ≤ st.current_batch.length)
    (hne : ¬ st.current_batch.isEmpty) :
    process_record c st (.str s) = .ok
      { batches := st.batches ++ [st.current_batch],
        current_batch := [s],
        current_batch_size := _get_record_size s,
        metrics := { st.metrics with
          records_processed := st.metrics.records_processed + 1,
          batches_created := st.metrics.batches_created + 1,
          total_bytes_processed :=
            st.metrics.total_bytes_processed + _get_record_size s } } := by
  have hv' : _get_record_size s ≤ c.max_record_size_bytes := by
    simpa [record_ok] using hv
  simp [process_record, is_valid_record, hv', hflush, hne]

/-- A valid record hitting the flush condition with an empty buffer: no
batch is yielded; the record starts a fresh batch. -/
theorem process_record_str_flush_empty (c : BatchConstraints) (st : LoopState) (s : PyStr)
    (hv : record_ok c s = true)
    (hflush : c.max_batch_size_bytes < st.current_batch_size + _get_record_size s
      ∨ c.max_records_per_batch ≤ st.current_batch.length)
    (he : st.current_batch.isEmpty) :
    process_record c st (.str s) = .ok
      { st with
        current_batch := [s],
        current_batch_size := _get_record_size s,
        metrics := { st.metrics with
          records_processed := st.metrics.records_processed + 1,
          total_bytes_processed :=
            st.metrics.total_bytes_processed + _get_record_size s } } := by
  have hv' : _get_record_size s ≤ c.max_record_size_bytes := by
    simpa [record_ok] using hv
  simp [process_record, is_valid_record, hv', hflush, he]

/-- A loop iteration that returns normally continues the traversal from the
new state. -/
theorem run_records_cons_ok {c : BatchConstraints} {st st1 : LoopState}
    {r : PyObj} {l : List PyObj} (h : process_record c st r = .ok st1) :
    run_records c st (r :: l) = run_records c st1 l := by
  simp [run_records, h]

/-- A loop iteration that raises aborts the traversal in the raising
state. -/
theorem run_records_cons_err {c : BatchConstraints} {st st1 : LoopState}
    {r : PyObj} {l : List PyObj} (h : process_record c st r = .err st1) :
    run_records c st (r :: l) = .err st1 := by
  simp [run_records, h]

/-- Splitting the traversal of a concatenated input. -/
theorem run_records_append (c : BatchConstraints) (xs ys : List PyObj) :
    ∀ st : LoopState, run_records c st (xs ++ ys) =
      match run_records c st xs with
      | .ok st' => run_records c st' ys
      | .err st' => .err st' := by
  induction xs with
  | nil => intro st; simp [run_records]
  | cons x xs ih =>
    intro st
    simp only [List.cons_append, run_records]
    cases process_record c st x with
    | ok st' => exact ih st'
    | err st' => rfl

theorem sizeSum_nil : sizeSum [] = 0 := rfl

theorem sizeSum_cons (s : PyStr) (l : List PyStr) :
    sizeSum (s :: l) = _get_record_size s + sizeSum l := by
  simp [sizeSum]

theorem sizeSum_append (l1 l2 : List PyStr) :
    sizeSum (l1 ++ l2) = sizeSum l1 + sizeSum l2 := by
  simp [sizeSum]

/-- Main characterization of the loop over an all-string input: it never
raises, and relates the final state to the initial one —
`records_processed` grows by the element count, `records_discarded` by the
number of invalid records, `total_bytes_processed` by the summed sizes of
the valid records, `batches_created` by the number of newly yielded
batches, and the yielded batches followed by the buffer extend the initial
ones by exactly the valid records, in order. -/
theorem run_records_str (c : BatchConstraints) (rs : List PyStr) :
    ∀ st : LoopState, ∃ st' : LoopState,
      run_records c st (rs.map PyObj.str) = .ok st' ∧
      st'.metrics.records_processed = st.metrics.records_processed + rs.length ∧
      st'.metrics.records_discarded
        = st.metrics.records_discarded + (rs.filter (fun s => ! record_ok c s)).length ∧
      st'.metrics.total_bytes_processed
        = st.metrics.total_bytes_processed + sizeSum (rs.filter (record_ok c)) ∧
      st'.metrics.batches_created + st.batches.length
        = st.metrics.batches_created + st'.batches.length ∧
      st'.batches.flatten ++ st'.current_batch
        = st.batches.flatten ++ st.current_batch ++ rs.filter (record_ok c) := by
  induction rs with
  | nil =>
    intro st
    exact ⟨st, rfl, by simp, by simp, by simp [sizeSum], by simp, by simp⟩
  | cons s rs ih =>
    intro st
    cases hv : record_ok c s with
    | false =>
      rw [List.map_cons, run_records_cons_ok (process_record_str_invalid c st s hv)]
      obtain ⟨st', hrun, h1, h2, h3, h4, h5⟩ := ih _
      refine ⟨st', hrun, ?_, ?_, ?_, ?_, ?_⟩
      · simp at h1 ⊢; omega
      · simp [hv] at h2 ⊢; omega
      · simp [hv] at h3 ⊢; omega
      · simp at h4 ⊢; omega
      · simpa [hv] using h5
    | true =>
      by_cases hflush : c.max_batch_size_bytes < st.current_batch_size + _get_record_size s
          ∨ c.max_records_per_batch ≤ st.current_batch.length
      · by_cases he : st.current_batch.isEmpty
        · rw [List.map_cons,
            run_records_cons_ok (process_record_str_flush_empty c st s hv hflush he)]
          obtain ⟨st', hrun, h1, h2, h3, h4, h5⟩ := ih _
          have hcb : st.current_batch = [] := by simpa [List.isEmpty_iff] using he
          refine ⟨st', hrun, ?_, ?_, ?_, ?_, ?_⟩
          · simp at h1 ⊢; omega
          · simp [hv] at h2 ⊢; omega
          · simp [hv, sizeSum_cons] at h3 ⊢; omega
          · simp at h4 ⊢; omega
          · simpa [hv, hcb] using h5
        · rw [List.map_cons,
            run_records_cons_ok (process_record_str_flush_emit c st s hv hflush he)]
          obtain ⟨st', hrun, h1, h2, h3, h4, h5⟩ := ih _
          refine ⟨st', hrun, ?_, ?_, ?_, ?_, ?_⟩
          · simp at h1 ⊢; omega
          · simp [hv] at h2 ⊢; omega
          · simp [hv, sizeSum_cons] at h3 ⊢; omega
          · simp at h4 ⊢; omega
          · simpa [hv] using h5
      · rw [not_or] at hflush
        obtain ⟨ha, hb⟩ := hflush
        have hsz : st.current_batch_size + _get_record_size s ≤ c.max_batch_size_bytes :=
          Nat.not_lt.mp ha
        have hlen : st.current_batch.length < c.max_records_per_batch :=
          Nat.not_le.mp hb
        rw [List.map_cons,
          run_records_cons_ok (process_record_str_append c st s hv hsz hlen)]
        obtain ⟨st', hrun, h1, h2, h3, h4, h5⟩ := ih _
        refine ⟨st', hrun, ?_, ?_, ?_, ?_, ?_⟩
        · simp at h1 ⊢; omega
        · simp [hv] at h2 ⊢; omega
        · simp [hv, sizeSum_cons] at h3 ⊢; omega
        · simp at h4 ⊢; omega
        · simpa [hv] using h5

/-- The entry state of the loop satisfies the invariant. -/
theorem initState_good (c : BatchConstraints) (m : BatchMetrics) :
    GoodState c (initState m) := by
  refine ⟨by simp [initState, sizeSum], by simp [initState], ?_, by simp [initState]⟩
  right
  simp [initState]

/-- The loop over an all-string input preserves the invariant (the count
bound on a fresh singleton batch needs `max_records_per_batch ≥ 1`). -/
theorem run_records_str_good (c : BatchConstraints)
    (hpos : 1 ≤ c.max_records_per_batch) (rs : List PyStr) :
    ∀ st st' : LoopState, GoodState c st →
      run_records c st (rs.map PyObj.str) = .ok st' → GoodState c st' := by
  induction rs with
  | nil =>
    intro st st' hg hrun
    simp only [List.map_nil, run_records] at hrun
    cases hrun
    exact hg
  | cons s rs ih =>
    intro st st' hg hrun
    obtain ⟨hacc, hcnt, hbnd, hall⟩ := hg
    cases hv : record_ok c s with
    | false =>
      rw [List.map_cons, run_records_cons_ok (process_record_str_invalid c st s hv)] at hrun
      refine ih _ _ ?_ hrun
      exact ⟨hacc, hcnt, hbnd, hall⟩
    | true =>
      by_cases hflush : c.max_batch_size_bytes < st.current_batch_size + _get_record_size s
          ∨ c.max_records_per_batch ≤ st.current_batch.length
      · by_cases he : st.current_batch.isEmpty
        · rw [List.map_cons,
            run_records_cons_ok (process_record_str_flush_empty c st s hv hflush he)] at hrun
          refine ih _ _ ⟨?_, ?_, ?_, ?_⟩ hrun
          · simp [sizeSum_cons, sizeSum_nil]
          · simpa using hpos
          · right; simp
          · simpa using hall
        · rw [List.map_cons,
            run_records_cons_ok (process_record_str_flush_emit c st s hv hflush he)] at hrun
          refine ih _ _ ⟨?_, ?_, ?_, ?_⟩ hrun
          · simp [sizeSum_cons, sizeSum_nil]
          · simpa using hpos
          · right; simp
          · intro b hb
            simp only [List.mem_append, List.mem_singleton] at hb
            rcases hb with hb | hb
            · exact hall b hb
            · subst hb
              have hne : st.current_batch ≠ [] := by
                simpa [List.isEmpty_iff] using he
              have hlen1 : 1 ≤ st.current_batch.length :=
                Nat.one_le_iff_ne_zero.mpr (by simpa using hne)
              refine ⟨hne, hcnt, ?_⟩
              rcases hbnd with hbnd | hbnd
              · exact Or.inl (hacc ▸ hbnd)
              · exact Or.inr (by omega)
      · rw [not_or] at hflush
        obtain ⟨ha, hb⟩ := hflush
        have hsz : st.current_batch_size + _get_record_size s ≤ c.max_batch_size_bytes :=
          Nat.not_lt.mp ha
        have hlen : st.current_batch.length < c.max_records_per_batch :=
          Nat.not_le.mp hb
        rw [List.map_cons,
          run_records_cons_ok (process_record_str_append c st s hv hsz hlen)] at hrun
        refine ih _ _ ⟨?_, ?_, ?_, ?_⟩ hrun
        · simp [sizeSum_append, sizeSum_cons, sizeSum_nil, hacc]
        · simp only [LoopState.mk.injEq]
          simpa using hlen
        · left; simpa using hsz
        · simpa using hall

/-! ### Claims -/

/-- Claim C1 (code bug).  The claim says `_get_record_size` returns exactly
the byte length of the record's UTF-8 encoding.  The code instead applies
`sys.getsizeof` to the encoded bytes object, which adds the fixed 33-byte
CPython `bytes` header: on the empty record the UTF-8 encoding is 0 bytes
but the operation returns 33.  (The operation is indeed pure and touches
no metrics: it takes no metrics and returns only a number.) -/
theorem get_record_size_not_utf8_length :
    utf8Len [] = 0 ∧ _get_record_size [] = 33 ∧ _get_record_size [] ≠ utf8Len [] :=
  ⟨rfl, rfl, by decide⟩

/-- Behaviour `is_valid_record` actually implements on a text record: it
returns true iff the size computed by `_get_record_size` (UTF-8 length
plus the 33 header bytes) is within `max_record_size_bytes`; when it
returns false the metrics change by exactly one increment of
`records_discarded`, and when it returns true the metrics are unchanged. -/
theorem is_valid_record_spec (c : BatchConstraints) (m : BatchMetrics) (s : PyStr) :
    (is_valid_record c m (.str s)).1
        = .ok (decide (_get_record_size s ≤ c.max_record_size_bytes)) ∧
    (is_valid_record c m (.str s)).2
        = (if _get_record_size s ≤ c.max_record_size_bytes then m
           else { m with records_discarded := m.records_discarded + 1 }) := by
  by_cases h : _get_record_size s ≤ c.max_record_size_bytes <;>
    simp [is_valid_record, h]

/-- Claim C5 (code bug).  The claim says the validator returns true iff
the record's encoded byte size is within `max_record_size_bytes`, and
that a true return mutates no metrics counter.  Counter-evaluation: with
`max_record_size_bytes = 3`, the record "abc" has UTF-8 encoded size
3 ≤ 3, yet `is_valid_record` computes 36 (= 3 + 33 header bytes),
returns false and increments `records_discarded`. -/
theorem is_valid_record_iff_encoded_size_fails :
    utf8Len ['a', 'b', 'c'] = 3 ∧
    (is_valid_record ⟨3, 5000000, 500⟩ freshMetrics (.str ['a', 'b', 'c'])).1
        = .ok false ∧
    (is_valid_record ⟨3, 5000000, 500⟩ freshMetrics
        (.str ['a', 'b', 'c'])).2.records_discarded = 1 :=
  ⟨by decide, rfl, rfl⟩

/-- Claim C6 (code bug).  The claim says a record whose encoded byte size
exactly equals `max_record_size_bytes` is accepted.  Counter-evaluation:
with `max_record_size_bytes = 4`, the record "abcd" has UTF-8 encoded size
exactly 4, yet `is_valid_record` computes 37 (= 4 + 33 header bytes),
returns false and increments `records_discarded`. -/
theorem boundary_record_rejected :
    utf8Len ['a', 'b', 'c', 'd'] = 4 ∧
    (is_valid_record ⟨4, 5000000, 500⟩ freshMetrics (.str ['a', 'b', 'c', 'd'])).1
        = .ok false ∧
    (is_valid_record ⟨4, 5000000, 500⟩ freshMetrics
        (.str ['a', 'b', 'c', 'd'])).2.records_discarded = 1 :=
  ⟨by decide, rfl, rfl⟩

/-- Claim C9 (confirmed).  On a non-text input, `is_valid_record` raises
`TypeError` before mutating anything: all four counters are unchanged by
the failing call. -/
theorem is_valid_record_nonstr_no_mutation (c : BatchConstraints) (m : BatchMetrics) :
    (is_valid_record c m .nonStr).1 = .error .typeError ∧
    (is_valid_record c m .nonStr).2.records_processed = m.records_processed ∧
    (is_valid_record c m .nonStr).2.records_discarded = m.records_discarded ∧
    (is_valid_record c m .nonStr).2.batches_created = m.batches_created ∧
    (is_valid_record c m .nonStr).2.total_bytes_processed = m.total_bytes_processed :=
  ⟨rfl, rfl, rfl, rfl, rfl⟩

/-- Claim C3 (confirmed).  Concatenating the batches emitted over a list of
text records reproduces exactly the valid records (those whose computed
size is within `max_record_size_bytes`), in their original input order. -/
theorem create_batches_order_preserving (c : BatchConstraints) (m : BatchMetrics)
    (rs : List PyStr) :
    (create_batches c m (.list (rs.map PyObj.str))).batches.flatten
      = rs.filter (record_ok c) := by
  obtain ⟨st, hrun, _, _, _, _, h5⟩ := run_records_str c rs (initState m)
  simp only [initState, List.flatten_nil, List.nil_append] at h5
  simp only [create_batches, hrun]
  by_cases he : st.current_batch.isEmpty
  · have hcb : st.current_batch = [] := by simpa [List.isEmpty_iff] using he
    simp only [he, if_true]
    rw [← h5, hcb, List.append_nil]
  · simp only [he, Bool.false_eq_true, if_false]
    simp only [List.flatten_append, List.flatten_cons, List.flatten_nil, List.append_nil]
    exact h5

/-- Claim C2 (confirmed).  Every batch emitted over a list of text records
is non-empty, holds at most `max_records_per_batch` records, and the sum
of the computed sizes of its records stays within `max_batch_size_bytes`
unless the batch is a single (oversized) record.  The count bound needs
the spec's constraint invariant `max_records_per_batch ≥ 1` (§3). -/
theorem create_batches_batch_bounds (c : BatchConstraints) (m : BatchMetrics)
    (rs : List PyStr) (b : Batch)
    (hpos : 1 ≤ c.max_records_per_batch)
    (hb : b ∈ (create_batches c m (.list (rs.map PyObj.str))).batches) :
    b ≠ [] ∧ b.length ≤ c.max_records_per_batch ∧
      (sizeSum b ≤ c.max_batch_size_bytes ∨ b.length = 1) := by
  obtain ⟨st, hrun, -, -, -, -, -⟩ := run_records_str c rs (initState m)
  obtain ⟨hacc, hcnt, hbnd, hall⟩ :=
    run_records_str_good c hpos rs (initState m) st (initState_good c m) hrun
  simp only [create_batches, hrun] at hb
  by_cases he : st.current_batch.isEmpty
  · simp only [he, if_true] at hb
    exact hall b hb
  · simp only [he, Bool.false_eq_true, if_false] at hb
    simp only [List.mem_append, List.mem_singleton] at hb
    rcases hb with hb | hb
    · exact hall b hb
    · subst hb
      have hne : st.current_batch ≠ [] := by
        simpa [List.isEmpty_iff] using he
      have hlen1 : 1 ≤ st.current_batch.length :=
        Nat.one_le_iff_ne_zero.mpr (by simpa using hne)
      refine ⟨hne, hcnt, ?_⟩
      rcases hbnd with hbnd | hbnd
      · exact Or.inl (hacc ▸ hbnd)
      · exact Or.inr (by omega)

/-- Concrete instantiation of `create_batches_batch_bounds`: with default
constraints, the input ["a"] yields the single batch [["a"]], which
satisfies all per-batch bounds. -/
theorem create_batches_batch_bounds_witness :
    1 ≤ defaultConstraints.max_records_per_batch ∧
    [['a']] ∈ (create_batches defaultConstraints freshMetrics
        (.list ([['a']].map PyObj.str))).batches ∧
    ([['a']] : Batch) ≠ [] ∧
    ([['a']] : Batch).length ≤ defaultConstraints.max_records_per_batch ∧
    (sizeSum [['a']] ≤ defaultConstraints.max_batch_size_bytes ∨
      ([['a']] : Batch).length = 1) :=
  ⟨by decide, by decide,
    create_batches_batch_bounds defaultConstraints freshMetrics [['a']] [['a']]
      (by decide) (by decide)⟩

/-- Metrics accounting `create_batches` actually implements: after fully
consuming it on a fresh processor fed a list of text records,
`records_processed` counts the input elements, `records_discarded` the
invalid ones, `total_bytes_processed` sums the `_get_record_size` values
(UTF-8 length plus 33 header bytes each) of the records actually placed
into batches, and `batches_created` counts the emitted batches. -/
theorem create_batches_metrics_accounting (c : BatchConstraints) (rs : List PyStr) :
    (create_batches c freshMetrics (.list (rs.map PyObj.str))).metrics.records_processed
        = rs.length ∧
    (create_batches c freshMetrics (.list (rs.map PyObj.str))).metrics.records_discarded
        = (rs.filter (fun s => ! record_ok c s)).length ∧
    (create_batches c freshMetrics (.list (rs.map PyObj.str))).metrics.total_bytes_processed
        = sizeSum (create_batches c freshMetrics (.list (rs.map PyObj.str))).batches.flatten ∧
    (create_batches c freshMetrics (.list (rs.map PyObj.str))).metrics.batches_created
        = (create_batches c freshMetrics (.list (rs.map PyObj.str))).batches.length := by
  obtain ⟨st, hrun, h1, h2, h3, h4, h5⟩ := run_records_str c rs (initState freshMetrics)
  simp only [initState, freshMetrics] at h1 h2 h3 h4 h5
  simp only [List.flatten_nil, List.nil_append, List.length_nil, Nat.zero_add,
    Nat.add_zero] at h1 h2 h3 h4 h5
  simp only [create_batches, hrun]
  by_cases he : st.current_batch.isEmpty
  · have hcb : st.current_batch = [] := by simpa [List.isEmpty_iff] using he
    rw [hcb, List.append_nil] at h5
    simp only [he, if_true]
    exact ⟨h1, h2, by rw [h3, h5], by omega⟩
  · simp only [he, Bool.false_eq_true, if_false]
    refine ⟨h1, h2, ?_, ?_⟩
    · simp only [List.flatten_append, List.flatten_cons, List.flatten_nil, List.append_nil]
      rw [h3, h5]
    · simp only [List.length_append, List.length_singleton]
      omega

/-- Claim C4 (code bug).  The claim says `total_bytes_processed` equals
the sum of the encoded sizes of the records actually placed into batches.
Counter-evaluation: on a fresh default processor fed ["a"], the single
batched record has UTF-8 encoded size 1, but the code adds
`_get_record_size` (1 + 33 header bytes), leaving the counter at 34.
(The other three counters of the claim are accounted correctly — see
`create_batches_metrics_accounting`.) -/
theorem total_bytes_counts_object_headers :
    (create_batches defaultConstraints freshMetrics
        (.list [.str ['a']])).metrics.total_bytes_processed = 34 ∧
    ((create_batches defaultConstraints freshMetrics
        (.list [.str ['a']])).batches.flatten.map utf8Len).sum = 1 ∧
    (create_batches defaultConstraints freshMetrics
        (.list [.str ['a']])).metrics.total_bytes_processed
      ≠ ((create_batches defaultConstraints freshMetrics
        (.list [.str ['a']])).batches.flatten.map utf8Len).sum :=
  ⟨by decide, by decide, by decide⟩

/-- Claim C7 (confirmed).  `create_batches` raises `TypeError` on a `None`
or non-list argument with no element examined (no batch, metrics
untouched); and when the traversal reaches a non-text element, it raises
`TypeError` there, the emitted batches being exactly those already closed
while traversing the preceding (all-text) elements, with nothing emitted
past that point. -/
theorem create_batches_type_errors (c : BatchConstraints) (m : BatchMetrics)
    (pre : List PyStr) (suf : List PyObj) (st : LoopState)
    (h : run_records c (initState m) (pre.map PyObj.str) = .ok st) :
    create_batches c m .pyNone = ⟨[], m, some .typeError⟩ ∧
    create_batches c m .nonList = ⟨[], m, some .typeError⟩ ∧
    (create_batches c m (.list (pre.map PyObj.str ++ .nonStr :: suf))).error
        = some .typeError ∧
    (create_batches c m (.list (pre.map PyObj.str ++ .nonStr :: suf))).batches
        = st.batches := by
  have key : run_records c (initState m) (pre.map PyObj.str ++ .nonStr :: suf)
      = .err { st with metrics := { st.metrics with
          records_processed := st.metrics.records_processed + 1 } } := by
    rw [run_records_append, h]
    exact run_records_cons_err (process_record_nonStr c st)
  refine ⟨rfl, rfl, ?_, ?_⟩ <;> simp only [create_batches, key]

/-- Concrete instantiation of `create_batches_type_errors`: with default
constraints and input ["a", None], the traversal of the leading ["a"]
reaches the state with buffer ["a"] and no batch yet closed, and the run
aborted at `None` has emitted no batch. -/
theorem create_batches_type_errors_witness :
    run_records defaultConstraints (initState freshMetrics) ([['a']].map PyObj.str)
        = .ok ⟨[], [['a']], 34, ⟨1, 0, 0, 34⟩⟩ ∧
    (create_batches defaultConstraints freshMetrics
        (.list ([['a']].map PyObj.str ++ .nonStr :: []))).batches
        = (⟨[], [['a']], 34, ⟨1, 0, 0, 34⟩⟩ : LoopState).batches :=
  ⟨by decide,
    (create_batches_type_errors defaultConstraints freshMetrics [['a']] []
      ⟨[], [['a']], 34, ⟨1, 0, 0, 34⟩⟩ (by decide)).2.2.2⟩

/-- Claim C10 (confirmed).  When `create_batches` on a fresh processor
aborts at a non-text element at (1-based) position `k = pre.length + 1`,
`records_processed` already counts the offending element (it equals `k`),
while `records_discarded` and `total_bytes_processed` reflect only the
preceding elements. -/
theorem create_batches_abort_metrics (c : BatchConstraints)
    (pre : List PyStr) (suf : List PyObj) :
    (create_batches c freshMetrics
        (.list (pre.map PyObj.str ++ .nonStr :: suf))).error = some .typeError ∧
    (create_batches c freshMetrics
        (.list (pre.map PyObj.str ++ .nonStr :: suf))).metrics.records_processed
        = pre.length + 1 ∧
    (create_batches c freshMetrics
        (.list (pre.map PyObj.str ++ .nonStr :: suf))).metrics.records_discarded
        = (pre.filter (fun s => ! record_ok c s)).length ∧
    (create_batches c freshMetrics
        (.list (pre.map PyObj.str ++ .nonStr :: suf))).metrics.total_bytes_processed
        = sizeSum (pre.filter (record_ok c)) := by
  obtain ⟨st, hrun, h1, h2, h3, -, -⟩ := run_records_str c pre (initState freshMetrics)
  simp only [initState, freshMetrics] at h1 h2 h3
  simp only [Nat.zero_add] at h1 h2 h3
  have key : run_records c (initState freshMetrics) (pre.map PyObj.str ++ .nonStr :: suf)
      = .err { st with metrics := { st.metrics with
          records_processed := st.metrics.records_processed + 1 } } := by
    rw [run_records_append, hrun]
    exact run_records_cons_err (process_record_nonStr c st)
  simp only [create_batches, key]
  exact ⟨by simp, by simpa using h1, by simpa using h2, by simpa using h3⟩

theorem utf8Len_replicate (n : Nat) (ch : Char) :
    utf8Len (List.replicate n ch) = n * ch.utf8Size := by
  simp [utf8Len, List.map_replicate, List.sum_replicate, smul_eq_mul]

/-- Claim C8 (confirmed).  With default constraints, six records of UTF-8
size `max_record_size_bytes - 100` = 999,900 bytes each produce exactly
two batches: the first five records, then the last one.  (Each record's
computed size is 999,933 = 999,900 + 33; five of them sum to 4,999,665 ≤
5,000,000, and the sixth would push the batch to 5,999,598.) -/
theorem create_batches_default_six_records (r1 r2 r3 r4 r5 r6 : PyStr)
    (h1 : utf8Len r1 = 999900) (h2 : utf8Len r2 = 999900)
    (h3 : utf8Len r3 = 999900) (h4 : utf8Len r4 = 999900)
    (h5 : utf8Len r5 = 999900) (h6 : utf8Len r6 = 999900) :
    (create_batches defaultConstraints freshMetrics
        (.list [.str r1, .str r2, .str r3, .str r4, .str r5, .str r6])).batches
      = [[r1, r2, r3, r4, r5], [r6]] := by
  have s1 : _get_record_size r1 = 999933 := by
    simp [_get_record_size, sys_getsizeof_bytes, h1]
  have s2 : _get_record_size r2 = 999933 := by
    simp [_get_record_size, sys_getsizeof_bytes, h2]
  have s3 : _get_record_size r3 = 999933 := by
    simp [_get_record_size, sys_getsizeof_bytes, h3]
  have s4 : _get_record_size r4 = 999933 := by
    simp [_get_record_size, sys_getsizeof_bytes, h4]
  have s5 : _get_record_size r5 = 999933 := by
    simp [_get_record_size, sys_getsizeof_bytes, h5]
  have s6 : _get_record_size r6 = 999933 := by
    simp [_get_record_size, sys_getsizeof_bytes, h6]
  have v1 : record_ok defaultConstraints r1 = true := by
    simp [record_ok, s1, defaultConstraints]
  have v2 : record_ok defaultConstraints r2 = true := by
    simp [record_ok, s2, defaultConstraints]
  have v3 : record_ok defaultConstraints r3 = true := by
    simp [record_ok, s3, defaultConstraints]
  have v4 : record_ok defaultConstraints r4 = true := by
    simp [record_ok, s4, defaultConstraints]
  have v5 : record_ok defaultConstraints r5 = true := by
    simp [record_ok, s5, defaultConstraints]
  have v6 : record_ok defaultConstraints r6 = true := by
    simp [record_ok, s6, defaultConstraints]
  have e1 : process_record defaultConstraints ⟨[], [], 0, ⟨0, 0, 0, 0⟩⟩ (.str r1)
      = .ok ⟨[], [r1], 999933, ⟨1, 0, 0, 999933⟩⟩ := by
    rw [process_record_str_append defaultConstraints _ r1 v1
      (by simp [defaultConstraints, s1]) (by simp [defaultConstraints])]
    simp [s1]
  have e2 : process_record defaultConstraints ⟨[], [r1], 999933, ⟨1, 0, 0, 999933⟩⟩ (.str r2)
      = .ok ⟨[], [r1, r2], 1999866, ⟨2, 0, 0, 1999866⟩⟩ := by
    rw [process_record_str_append defaultConstraints _ r2 v2
      (by simp [defaultConstraints, s2]) (by simp [defaultConstraints])]
    simp [s2]
  have e3 : process_record defaultConstraints
        ⟨[], [r1, r2], 1999866, ⟨2, 0, 0, 1999866⟩⟩ (.str r3)
      = .ok ⟨[], [r1, r2, r3], 2999799, ⟨3, 0, 0, 2999799⟩⟩ := by
    rw [process_record_str_append defaultConstraints _ r3 v3
      (by simp [defaultConstraints, s3]) (by simp [defaultConstraints])]
    simp [s3]
  have e4 : process_record defaultConstraints
        ⟨[], [r1, r2, r3], 2999799, ⟨3, 0, 0, 2999799⟩⟩ (.str r4)
      = .ok ⟨[], [r1, r2, r3, r4], 3999732, ⟨4, 0, 0, 3999732⟩⟩ := by
    rw [process_record_str_append defaultConstraints _ r4 v4
      (by simp [defaultConstraints, s4]) (by simp [defaultConstraints])]
    simp [s4]
  have e5 : process_record defaultConstraints
        ⟨[], [r1, r2, r3, r4], 3999732, ⟨4, 0, 0, 3999732⟩⟩ (.str r5)
      = .ok ⟨[], [r1, r2, r3, r4, r5], 4999665, ⟨5, 0, 0, 4999665⟩⟩ := by
    rw [process_record_str_append defaultConstraints _ r5 v5
      (by simp [defaultConstraints, s5]) (by simp [defaultConstraints])]
    simp [s5]
  have e6 : process_record defaultConstraints
        ⟨[], [r1, r2, r3, r4, r5], 4999665, ⟨5, 0, 0, 4999665⟩⟩ (.str r6)
      = .ok ⟨[[r1, r2, r3, r4, r5]], [r6], 999933, ⟨6, 0, 1, 5999598⟩⟩ := by
    rw [process_record_str_flush_emit defaultConstraints _ r6 v6
      (by simp [defaultConstraints, s6]) (by simp)]
    simp [s6]
  simp only [create_batches, initState, freshMetrics]
  rw [run_records_cons_ok e1, run_records_cons_ok e2, run_records_cons_ok e3,
    run_records_cons_ok e4, run_records_cons_ok e5, run_records_cons_ok e6]
  simp [run_records]

/-- Concrete instantiation of `create_batches_default_six_records` with
six copies of the 999,900-character record "xxx...x". -/
theorem create_batches_default_six_records_witness :
    utf8Len (List.replicate 999900 'x') = 999900 ∧
    (create_batches defaultConstraints freshMetrics
        (.list [.str (List.replicate 999900 'x'), .str (List.replicate 999900 'x'),
                .str (List.replicate 999900 'x'), .str (List.replicate 999900 'x'),
                .str (List.replicate 999900 'x'), .str (List.replicate 999900 'x')])).batches
      = [[List.replicate 999900 'x', List.replicate 999900 'x', List.replicate 999900 'x',
          List.replicate 999900 'x', List.replicate 999900 'x'],
         [List.replicate 999900 'x']] := by
  have hbr : utf8Len (List.replicate 999900 'x') = 999900 := by
    rw [utf8Len_replicate]
    norm_num [show Char.utf8Size 'x' = 1 from rfl]
  exact ⟨hbr, create_batches_default_six_records _ _ _ _ _ _ hbr hbr hbr hbr hbr hbr⟩
